import Mathlib

/-!
Verification of the docker log-collection target of this repository
(clients/pkg/promtail/targets/docker/target.go) against its specification.

The Go source is shallowly embedded: strings are lists of characters,
Go's time.Time values are records of broken-down civil time plus a zone
offset, goroutine lifecycle state is an explicit record updated by the
functions that model each phase of the code, and external collaborators
(position store, relabel engine, entry sink, docker client) appear as
explicit parameters or result values.
-/

namespace DockerTarget

/-! ## Timestamps

Model of the subset of Go's time package used by the target: parsing with
the fixed layout string found at target.go line 145,
2006-01-02T15:04:05.999999999Z07:00 (RFC3339 with optional nanoseconds and
a numeric or Z zone), and the Unix() seconds conversion used at line 191.
-/

/-- Broken-down civil time with a zone offset, modelling the Go time.Time
value produced by time.Parse for the fixed layout: calendar fields, the
nanosecond fraction, and the zone offset in seconds east of UTC. -/
structure Timestamp where
  year : Nat
  month : Nat
  day : Nat
  hour : Nat
  minute : Nat
  second : Nat
  nanosecond : Nat
  offset : Int
deriving DecidableEq, Repr

/-- Gregorian leap-year rule, as in Go's time.isLeap. -/
def isLeap (y : Nat) : Bool :=
  y % 4 == 0 && (y % 100 != 0 || y % 400 == 0)

/-- Days in a month, as in Go's time.daysIn. -/
def daysIn (y m : Nat) : Nat :=
  if m = 2 then (if isLeap y then 29 else 28)
  else if m = 4 ∨ m = 6 ∨ m = 9 ∨ m = 11 then 30
  else 31

/-- Days from the civil date to the Unix epoch 1970-01-01 (negative before
it), computed by the standard era decomposition of the proleptic Gregorian
calendar; this is the date arithmetic underlying Go's Time.Unix. -/
def daysFromCivil (year month day : Nat) : Int :=
  let y : Int := if month ≤ 2 then (year : Int) - 1 else (year : Int)
  let era : Int := (if 0 ≤ y then y else y - 399) / 400
  let yoe : Int := y - era * 400
  let m : Int := (month : Int)
  let mp : Int := if 2 < m then m - 3 else m + 9
  let doy : Int := (153 * mp + 2) / 5 + (day : Int) - 1
  let doe : Int := yoe * 365 + yoe / 4 - yoe / 100 + doy
  era * 146097 + doe - 719468

/-- Unix seconds of the instant, as Go's Time.Unix: the civil datetime in
seconds minus the zone offset; the nanosecond fraction is truncated. -/
def Timestamp.unix (t : Timestamp) : Int :=
  86400 * daysFromCivil t.year t.month t.day
    + 3600 * (t.hour : Int) + 60 * (t.minute : Int) + (t.second : Int)
    - t.offset

/-- Numeric value of an ASCII digit, none for any other character. -/
def digitVal (c : Char) : Option Nat :=
  if '0' ≤ c ∧ c ≤ '9' then some (c.toNat - 48) else none

/-- Go's getnum with fixed = true: exactly two digits. -/
def parseFixed2 : List Char → Option (Nat × List Char)
  | a :: b :: rest => do
    let x ← digitVal a
    let y ← digitVal b
    some (10 * x + y, rest)
  | _ => none

/-- Go's getnum with fixed = false, used for the hour field of layout
chunk 15: one digit, or two when the second character is also a digit. -/
def parseNum : List Char → Option (Nat × List Char)
  | [] => none
  | [a] => do
    let x ← digitVal a
    some (x, ([] : List Char))
  | a :: b :: rest =>
    match digitVal a, digitVal b with
    | none, _ => none
    | some x, none => some (x, b :: rest)
    | some x, some y => some (10 * x + y, rest)

/-- Go's stdLongYear: exactly four digits. -/
def parseYear4 : List Char → Option (Nat × List Char)
  | a :: b :: c :: d :: rest => do
    let x1 ← digitVal a
    let x2 ← digitVal b
    let x3 ← digitVal c
    let x4 ← digitVal d
    some (1000 * x1 + 100 * x2 + 10 * x3 + x4, rest)
  | _ => none

/-- Consume one expected literal character of the layout. -/
def expectChar (c : Char) : List Char → Option (List Char)
  | x :: rest => if x = c then some rest else none
  | [] => none

/-- Value of a digit run read left to right. -/
def natOfDigits (ds : List Nat) : Nat :=
  ds.foldl (fun acc d => 10 * acc + d) 0

/-- Go's stdFracSecond9 parsing for layout chunk .999999999: an optional
fraction introduced by a period or comma followed by at least one digit;
all digits are consumed but only the first nine contribute, scaled to
nanoseconds (time.parseNanoseconds). Absent fraction contributes zero. -/
def parseFrac : List Char → Nat × List Char
  | p :: d :: rest =>
    if (p = '.' ∨ p = ',') then
      match digitVal d with
      | some _ =>
        let run := (d :: rest).takeWhile (fun c => (digitVal c).isSome)
        let rest2 := (d :: rest).dropWhile (fun c => (digitVal c).isSome)
        let ds := run.filterMap digitVal
        let kept := ds.take 9
        let ns := natOfDigits kept * 10 ^ (9 - kept.length)
        (ns, rest2)
      | none => (0, p :: d :: rest)
    else (0, p :: d :: rest)
  | s => (0, s)

/-- Go's stdISO8601ColonTZ parsing for layout chunk Z07:00: the letter Z
meaning UTC, or a sign, two hour digits, a colon and two minute digits,
giving the offset in seconds east of UTC. Go range-checks neither field. -/
def parseZone : List Char → Option (Int × List Char)
  | 'Z' :: rest => some (0, rest)
  | sgn :: a :: b :: ':' :: c :: d :: rest => do
    let hh ← digitVal a
    let hl ← digitVal b
    let mh ← digitVal c
    let ml ← digitVal d
    let off : Int := ((10 * hh + hl) * 60 + (10 * mh + ml)) * 60
    if sgn = '+' then some (off, rest)
    else if sgn = '-' then some (-off, rest)
    else none
  | _ => none

/-- Model of Go's time.Parse with the fixed layout
2006-01-02T15:04:05.999999999Z07:00 (target.go line 145): each layout
chunk is parsed in sequence, the whole input must be consumed, and the
calendar fields are range-checked as time.Parse does (month 1..12, day
within the month, hour below 24, minute and second below 60). -/
def parseTimestamp (s : List Char) : Option Timestamp := do
  let (y, s) ← parseYear4 s
  let s ← expectChar '-' s
  let (mo, s) ← parseFixed2 s
  let s ← expectChar '-' s
  let (d, s) ← parseFixed2 s
  let s ← expectChar 'T' s
  let (h, s) ← parseNum s
  let s ← expectChar ':' s
  let (mi, s) ← parseFixed2 s
  let s ← expectChar ':' s
  let (sec, s) ← parseFixed2 s
  let (ns, s) := parseFrac s
  let (off, s) ← parseZone s
  if s = [] ∧ 1 ≤ mo ∧ mo ≤ 12 ∧ 1 ≤ d ∧ d ≤ daysIn y mo
      ∧ h ≤ 23 ∧ mi ≤ 59 ∧ sec ≤ 59 then
    some ⟨y, mo, d, h, mi, sec, ns, off⟩
  else
    none

/-! ## extractTs -/

/-- The two error shapes produced by extractTs (target.go lines 143 and
147), each carrying the text interpolated into the Go error message. -/
inductive ExtractErr where
  | couldNotFind (line : List Char)
  | couldNotParse (tok : List Char)
deriving DecidableEq, Repr

/-- Split a character list around the first space character, as Go's
strings.SplitN(line, " ", 2): none when no space occurs (SplitN yields a
single element), otherwise the text before the first space and everything
after it. -/
def splitFirstSpace : List Char → Option (List Char × List Char)
  | [] => none
  | c :: cs =>
    if c = ' ' then some ([], cs)
    else (splitFirstSpace cs).map (fun p => (c :: p.1, p.2))

/-- Model of extractTs (target.go lines 140-150). The Go function returns
a triple (time, text, error); on both failure paths it returns time.Now()
— a nondeterministic value its caller discards — modelled here as none in
the first component, together with the original line and the error. -/
def extractTs (line : List Char) :
    Option Timestamp × List Char × Option ExtractErr :=
  match splitFirstSpace line with
  | none => (none, line, some (.couldNotFind line))
  | some (tok, rest) =>
    match parseTimestamp tok with
    | none => (none, line, some (.couldNotParse tok))
    | some ts => (some ts, rest, none)

/-! ## Labels and the line processor

Model of process (target.go lines 152-199). Label sets are association
lists of name/value pairs. The external Relabel Engine
(relabel.Process with the target's rule chain, line 173) is an arbitrary
function on label sets, carried in the processor configuration.
-/

/-- One Set call on a prometheus labels.Builder (lines 170 and 172):
any existing entry for the name is deleted and the new value appended, so
a later Set for the same name wins. -/
def labelsSet (ls : List (String × String)) (name v : String) :
    List (String × String) :=
  ls.filter (fun p => p.1 ≠ name) ++ [(name, v)]

/-- Modelled from the spec: the synthetic "log stream" label name, the
constant dockerLabelLogStream referenced at target.go line 172 but defined
in a repository file outside the provided sources. The spec only calls it
the synthetic log-stream label; the exact string does not matter to any
theorem below. -/
def dockerLabelLogStream : String := "__meta_docker_log_stream"

/-- The label set handed to the relabel engine for one line (lines
168-172): a builder is filled with every static target label and then with
the log-stream label, later writes winning. Go iterates the static label
map in arbitrary order; map keys are unique, so the resulting set does not
depend on that order. -/
def buildStreamLabels (static : List (String × String)) (logStream : String) :
    List (String × String) :=
  labelsSet (static.foldl (fun acc kv => labelsSet acc kv.1 kv.2) [])
    dockerLabelLogStream logStream

/-- One log record sent to the Entry Sink (api.Entry, lines 183-189). -/
structure Entry where
  labels : List (String × String)
  ts : Timestamp
  line : List Char
deriving DecidableEq, Repr

/-- Per-processor configuration: the static target labels (t.labels) and
the external relabel engine already applied to the target's rule chain
(fun ls => relabel.Process(ls, t.relabelConfig...)). -/
structure ProcCfg where
  labels : List (String × String)
  relabelFn : List (String × String) → List (String × String)

/-- Observable state threaded through the processing of one stream: the
Entry Sink transcript in send order, the two metrics counters
(dockerEntries, dockerErrors) and the position-store value under this
container's key (none = never written). -/
structure ProcState where
  entries : List Entry
  entryCount : Nat
  errorCount : Nat
  cursor : Option Int
deriving Repr

/-- Go's strings.HasPrefix on the character lists of the two strings. -/
def goStartsWith (s pre : String) : Bool :=
  pre.toList.isPrefixOf s.toList

/-- The Entry built for one successfully extracted line (lines 167-189):
the per-line label set is relabelled, every label whose name starts with
"__" is dropped (strings.HasPrefix at line 177 guards a continue), and the
Entry carries the surviving labels, the parsed timestamp and the line
remainder. -/
def forwardedEntry (cfg : ProcCfg) (logStream : String) (ts : Timestamp)
    (text : List Char) : Entry :=
  { labels := (cfg.relabelFn (buildStreamLabels cfg.labels logStream)).filter
      (fun p => !(goStartsWith p.1 "__")),
    ts := ts,
    line := text }

/-- The body of the scan loop of process (lines 158-192) for one line:
extract the timestamp — on error (if err != nil) increment dockerErrors
and skip the line — otherwise send the forwarded Entry, increment
dockerEntries and overwrite the cursor with the timestamp's unix seconds.
The timestamp-absent-yet-errorless case cannot be produced by extractTs
and leaves the state unchanged. -/
def processLine (cfg : ProcCfg) (logStream : String) (st : ProcState)
    (line : List Char) : ProcState :=
  match extractTs line with
  | (tsOpt, text, errOpt) =>
    match errOpt with
    | some _ => { st with errorCount := st.errorCount + 1 }
    | none =>
      match tsOpt with
      | some ts =>
        { st with
          entries := st.entries ++ [forwardedEntry cfg logStream ts text],
          entryCount := st.entryCount + 1,
          cursor := some ts.unix }
      | none => st

/-- process over a whole stream: the scanner yields the stream's lines in
order and the loop body runs once per line. -/
def processLines (cfg : ProcCfg) (logStream : String) (st : ProcState)
    (lines : List (List Char)) : ProcState :=
  lines.foldl (processLine cfg logStream) st

/-- The processor state before any line is handled. -/
def initState : ProcState :=
  { entries := [], entryCount := 0, errorCount := 0, cursor := none }

/-! ## Target lifecycle

Model of the Target record (lines 30-45), NewTarget (47-84), processLoop
(86-136), Stop (201-205), Ready (211-213) and Details (224-231). The
concurrent execution is modelled at quiescence points: a phase records
which workers are outstanding, and each transition function applies the
state updates the corresponding stretch of code performs.
-/

/-- Lifecycle phase: created = processLoop spawned but stream not yet
requested; streaming = stream acquired, all four workers live; failed =
ContainerLogs returned an error and the loop exited; stopped = cancelled
and fully torn down. -/
inductive Phase where
  | created
  | streaming
  | failed
  | stopped
deriving DecidableEq, Repr

/-- The mutable Target state: the resume cursor resolved at construction,
the atomic running flag, the last fatal error (none models Go's nil
error), the outstanding sync.WaitGroup count over all spawned workers, and
the lifecycle phase. -/
structure Target where
  containerName : String
  since : Int
  running : Bool
  err : Option String
  wgCount : Nat
  phase : Phase
deriving DecidableEq, Repr

/-- NewTarget (lines 47-84) given the outcome of the position-store lookup
position.Get(CursorKey(containerName)): on lookup error the constructor
returns that error and starts nothing; otherwise since is the stored
cursor when nonzero and zero otherwise, and the target starts with
running = false, no recorded error and the processing loop spawned but not
yet run (phase created, no worker registered with the WaitGroup yet). -/
def NewTarget (containerName : String) (posResult : Except String Int) :
    Except String Target :=
  match posResult with
  | .error e => .error e
  | .ok pos =>
    let since : Int := if pos ≠ 0 then pos else 0
    .ok { containerName := containerName, since := since, running := false,
          err := none, wgCount := 0, phase := .created }

/-- processLoop (lines 86-136) run up to its first quiescence point, given
the outcome of t.client.ContainerLogs: the loop registers with the
WaitGroup and stores running = true before the request (lines 87-89). On
request failure it records the error and returns — the deferred wg.Done
undoes the Add, no retry happens, and nothing stores running = false. On
success it registers the demultiplexer and the two line processors (lines
109 and 127; four outstanding workers counting the loop, now blocked at
<-ctx.Done()). -/
def processLoopRun (t : Target) (acquire : Except String Unit) : Target :=
  match acquire with
  | .error e => { t with running := true, err := some e, phase := .failed }
  | .ok _ =>
    { t with running := true, wgCount := t.wgCount + 4, phase := .streaming }

/-- Stop (lines 201-205): cancel the shared context, then wg.Wait. From
the streaming phase the cancellation cascades: the loop stores
running = false and closes the stream (lines 133-134), the
demultiplexer's read unblocks, it closes both pipes and re-invokes Stop
(idempotent, lines 111-116), both processors hit end-of-stream, every
worker calls wg.Done and the wait returns at count zero. In any other
phase no worker is outstanding: cancel changes no observable state and
wg.Wait returns at once — in particular nothing resets running after a
failed acquisition. -/
def Target.stop (t : Target) : Target :=
  match t.phase with
  | .streaming => { t with running := false, wgCount := 0, phase := .stopped }
  | _ => t

/-- Ready (lines 211-213): the current value of the running flag. -/
def Ready (t : Target) : Bool := t.running

/-- Details (lines 224-231) given the position store's display string for
the container's key. Line 227 evaluates t.err.Error(); when no error was
ever recorded t.err is Go's nil and the call dereferences a nil interface,
a runtime panic, modelled as none. Otherwise the four-field debug map is
returned, with strconv.FormatBool for the running flag. -/
def Details (t : Target) (posString : String) :
    Option (List (String × String)) :=
  match t.err with
  | none => none
  | some e =>
    some [("id", t.containerName), ("error", e), ("position", posString),
          ("running", if t.running then "true" else "false")]

/-! ## Helper lemmas -/

theorem splitFirstSpace_eq_none_iff :
    ∀ l : List Char, splitFirstSpace l = none ↔ ' ' ∉ l
  | [] => by simp [splitFirstSpace]
  | c :: cs => by
    by_cases hc : c = ' '
    · subst hc
      simp [splitFirstSpace]
    · simp only [splitFirstSpace, if_neg hc, Option.map_eq_none',
        splitFirstSpace_eq_none_iff cs, List.mem_cons]
      constructor
      · intro h hmem
        rcases hmem with h1 | h2
        · exact hc h1.symm
        · exact h h2
      · intro h hmem
        exact h (Or.inr hmem)

theorem splitFirstSpace_append :
    ∀ (a : List Char), ' ' ∉ a →
      ∀ b : List Char, splitFirstSpace (a ++ ' ' :: b) = some (a, b)
  | [], _, b => by simp [splitFirstSpace]
  | c :: cs, h, b => by
    have hc : c ≠ ' ' := fun hcc => h (hcc ▸ List.mem_cons_self c cs)
    have hcs : ' ' ∉ cs := fun hm => h (List.mem_cons_of_mem c hm)
    simp [splitFirstSpace, if_neg hc, splitFirstSpace_append cs hcs b]

theorem splitFirstSpace_sound :
    ∀ {line tok rest : List Char}, splitFirstSpace line = some (tok, rest) →
      line = tok ++ ' ' :: rest ∧ ' ' ∉ tok := by
  intro line
  induction line with
  | nil => intro tok rest h; simp [splitFirstSpace] at h
  | cons c cs ih =>
    intro tok rest h
    by_cases hc : c = ' '
    · subst hc
      simp [splitFirstSpace] at h
      obtain ⟨h1, h2⟩ := h
      subst h1; subst h2
      simp
    · simp only [splitFirstSpace, if_neg hc, Option.map_eq_some'] at h
      obtain ⟨⟨t', r'⟩, hsplit, heq⟩ := h
      obtain ⟨rfl, rfl⟩ := Prod.mk.injEq .. ▸ heq
      obtain ⟨hline, hnot⟩ := ih hsplit
      refine ⟨by simp [hline], ?_⟩
      intro hm
      rcases List.mem_cons.mp hm with h1 | h2
      · exact hc h1.symm
      · exact hnot h2

theorem extractTs_eq_split_none {line : List Char}
    (h : splitFirstSpace line = none) :
    extractTs line = (none, line, some (.couldNotFind line)) := by
  simp only [extractTs, h]

theorem extractTs_eq_parse_none {line tok rest : List Char}
    (h1 : splitFirstSpace line = some (tok, rest))
    (h2 : parseTimestamp tok = none) :
    extractTs line = (none, line, some (.couldNotParse tok)) := by
  simp only [extractTs, h1, h2]

theorem extractTs_eq_ok {line tok rest : List Char} {ts : Timestamp}
    (h1 : splitFirstSpace line = some (tok, rest))
    (h2 : parseTimestamp tok = some ts) :
    extractTs line = (some ts, rest, none) := by
  simp only [extractTs, h1, h2]

theorem extractTs_ok_shape {line : List Char}
    (h : (extractTs line).2.2 = none) :
    ∃ ts text, extractTs line = (some ts, text, none) := by
  cases hsp : splitFirstSpace line with
  | none => rw [extractTs_eq_split_none hsp] at h; simp at h
  | some p =>
    obtain ⟨tok, rest⟩ := p
    cases hp : parseTimestamp tok with
    | none => rw [extractTs_eq_parse_none hsp hp] at h; simp at h
    | some ts => exact ⟨ts, rest, extractTs_eq_ok hsp hp⟩

theorem extractTs_err_text {line : List Char} {tsOpt : Option Timestamp}
    {text : List Char} {e : ExtractErr}
    (h : extractTs line = (tsOpt, text, some e)) : text = line := by
  cases hsp : splitFirstSpace line with
  | none =>
    rw [extractTs_eq_split_none hsp] at h
    simp only [Prod.mk.injEq] at h
    exact h.2.1.symm
  | some p =>
    obtain ⟨tok, rest⟩ := p
    cases hp : parseTimestamp tok with
    | none =>
      rw [extractTs_eq_parse_none hsp hp] at h
      simp only [Prod.mk.injEq] at h
      exact h.2.1.symm
    | some ts =>
      rw [extractTs_eq_ok hsp hp] at h
      simp only [Prod.mk.injEq] at h
      exact absurd h.2.2 (by simp)

theorem processLine_err {cfg : ProcCfg} {s : String} {st : ProcState}
    {line : List Char} {tsOpt : Option Timestamp} {text : List Char}
    {e : ExtractErr} (h : extractTs line = (tsOpt, text, some e)) :
    processLine cfg s st line = { st with errorCount := st.errorCount + 1 } := by
  unfold processLine
  rw [h]

theorem processLine_ok {cfg : ProcCfg} {s : String} {st : ProcState}
    {line : List Char} {ts : Timestamp} {text : List Char}
    (h : extractTs line = (some ts, text, none)) :
    processLine cfg s st line =
      { st with
        entries := st.entries ++ [forwardedEntry cfg s ts text],
        entryCount := st.entryCount + 1,
        cursor := some ts.unix } := by
  unfold processLine
  rw [h]

theorem processLines_nil (cfg : ProcCfg) (s : String) (st : ProcState) :
    processLines cfg s st [] = st := rfl

theorem processLines_cons (cfg : ProcCfg) (s : String) (st : ProcState)
    (l : List Char) (ls : List (List Char)) :
    processLines cfg s st (l :: ls) =
      processLines cfg s (processLine cfg s st l) ls := rfl

theorem processLines_append (cfg : ProcCfg) (s : String) (st : ProcState)
    (a b : List (List Char)) :
    processLines cfg s st (a ++ b) =
      processLines cfg s (processLines cfg s st a) b :=
  List.foldl_append ..

theorem processLines_good (cfg : ProcCfg) (s : String) :
    ∀ (ls : List (List Char)) (st : ProcState),
      (∀ l ∈ ls, (extractTs l).2.2 = none) →
      (processLines cfg s st ls).entries.length
          = st.entries.length + ls.length ∧
      (processLines cfg s st ls).errorCount = st.errorCount ∧
      (processLines cfg s st ls).entryCount = st.entryCount + ls.length
  | [], st, _ => by simp [processLines_nil]
  | l :: ls, st, h => by
    obtain ⟨ts, text, hok⟩ := extractTs_ok_shape (h l (List.mem_cons_self l ls))
    rw [processLines_cons, processLine_ok hok]
    have ih := processLines_good cfg s ls
      { st with
        entries := st.entries ++ [forwardedEntry cfg s ts text],
        entryCount := st.entryCount + 1,
        cursor := some ts.unix }
      (fun l' hl' => h l' (List.mem_cons_of_mem l hl'))
    obtain ⟨h1, h2, h3⟩ := ih
    refine ⟨?_, by simpa using h2, ?_⟩
    · simp only [h1]
      simp
      omega
    · simp only [h3]
      simp
      omega

theorem extractTs_cases (line : List Char) :
    (∃ ts text, extractTs line = (some ts, text, none)) ∨
    (∃ tsOpt text e, extractTs line = (tsOpt, text, some e)) := by
  cases hsp : splitFirstSpace line with
  | none => exact Or.inr ⟨_, _, _, extractTs_eq_split_none hsp⟩
  | some p =>
    obtain ⟨tok, rest⟩ := p
    cases hp : parseTimestamp tok with
    | none => exact Or.inr ⟨_, _, _, extractTs_eq_parse_none hsp hp⟩
    | some ts => exact Or.inl ⟨ts, rest, extractTs_eq_ok hsp hp⟩

theorem processLine_entries_shape {cfg : ProcCfg} {s : String}
    {st : ProcState} {l : List Char} {en : Entry}
    (h : en ∈ (processLine cfg s st l).entries) :
    en ∈ st.entries ∨ ∃ ts text, en = forwardedEntry cfg s ts text := by
  rcases extractTs_cases l with ⟨ts, text, hok⟩ | ⟨tsOpt, text, e, herr⟩
  · rw [processLine_ok hok] at h
    rcases List.mem_append.mp h with h1 | h1
    · exact Or.inl h1
    · exact Or.inr ⟨ts, text, List.mem_singleton.mp h1⟩
  · rw [processLine_err herr] at h
    exact Or.inl h

theorem processLines_entries_shape (cfg : ProcCfg) (s : String) :
    ∀ (ls : List (List Char)) (st : ProcState) (en : Entry),
      en ∈ (processLines cfg s st ls).entries →
      en ∈ st.entries ∨ ∃ ts text, en = forwardedEntry cfg s ts text
  | [], _, _, h => Or.inl h
  | l :: ls, st, en, h => by
    rw [processLines_cons] at h
    rcases processLines_entries_shape cfg s ls (processLine cfg s st l) en h
      with hmem | hfwd
    · exact processLine_entries_shape hmem
    · exact Or.inr hfwd

/-! ## Claim theorems -/

/-- Concrete processor configuration used by witnesses: one static label
and the identity relabel rule chain. -/
def sampleCfg : ProcCfg := { labels := [("job", "x")], relabelFn := fun ls => ls }

/-- C4: for every line built from a space-free leading token that parses
under the fixed layout, followed by a space and the body, extractTs
returns the parsed timestamp, the body and no error; concretely
"2023-01-01T00:00:00.000000000Z hello" yields civil time
2023-01-01T00:00:00 at zone offset 0 (UTC, unix 1672531200) and body
"hello". -/
theorem extractTs_wellformed (tok body : List Char) (ts : Timestamp)
    (htok : ' ' ∉ tok) (hparse : parseTimestamp tok = some ts) :
    extractTs (tok ++ ' ' :: body) = (some ts, body, none) ∧
    extractTs ("2023-01-01T00:00:00.000000000Z hello".toList) =
      (some ⟨2023, 1, 1, 0, 0, 0, 0, 0⟩, "hello".toList, none) ∧
    (⟨2023, 1, 1, 0, 0, 0, 0, 0⟩ : Timestamp).unix = 1672531200 :=
  ⟨extractTs_eq_ok (splitFirstSpace_append tok htok body) hparse,
    by decide, by decide⟩

/-- Witness for C4 at the concrete line of the claim. -/
theorem extractTs_wellformed_witness :
    ' ' ∉ ("2023-01-01T00:00:00.000000000Z".toList) ∧
    parseTimestamp ("2023-01-01T00:00:00.000000000Z".toList) =
      some ⟨2023, 1, 1, 0, 0, 0, 0, 0⟩ ∧
    extractTs (("2023-01-01T00:00:00.000000000Z".toList) ++
        ' ' :: ("hello".toList)) =
      (some ⟨2023, 1, 1, 0, 0, 0, 0, 0⟩, "hello".toList, none) :=
  ⟨by decide, by decide,
    (extractTs_wellformed ("2023-01-01T00:00:00.000000000Z".toList)
      ("hello".toList) ⟨2023, 1, 1, 0, 0, 0, 0, 0⟩
      (by decide) (by decide)).1⟩

/-- C6 counterexample: the line a-tab-b contains whitespace (the tab) yet
extractTs produces the malformed-line split error, refuting that the split
error occurs exactly when the line contains no whitespace: the code splits
on the space character only. -/
theorem split_error_despite_whitespace :
    (extractTs ['a', '\t', 'b']).2.2 =
      some (.couldNotFind ['a', '\t', 'b']) ∧
    ['a', '\t', 'b'].any Char.isWhitespace = true := by decide

/-- C6 (amended): extractTs splits on the first space character, not any
whitespace: the malformed-line error is produced exactly when the line
contains no space, and whenever a space is present the line splits into
the space-free leading token and the remainder after the first space. -/
theorem split_error_iff_no_space (line : List Char) :
    ((extractTs line).2.2 = some (.couldNotFind line) ↔ ' ' ∉ line) ∧
    (' ' ∈ line → ∃ tok rest, splitFirstSpace line = some (tok, rest) ∧
      line = tok ++ ' ' :: rest ∧ ' ' ∉ tok) := by
  constructor
  · constructor
    · intro h
      cases hsp : splitFirstSpace line with
      | none => exact (splitFirstSpace_eq_none_iff line).mp hsp
      | some p =>
        obtain ⟨tok, rest⟩ := p
        cases hp : parseTimestamp tok with
        | none => rw [extractTs_eq_parse_none hsp hp] at h; simp at h
        | some ts => rw [extractTs_eq_ok hsp hp] at h; simp at h
    · intro h
      rw [extractTs_eq_split_none ((splitFirstSpace_eq_none_iff line).mpr h)]
  · intro h
    cases hsp : splitFirstSpace line with
    | none => exact absurd h ((splitFirstSpace_eq_none_iff line).mp hsp)
    | some p =>
      obtain ⟨tok, rest⟩ := p
      obtain ⟨hline, hnot⟩ := splitFirstSpace_sound hsp
      exact ⟨tok, rest, rfl, hline, hnot⟩

/-- Witness for the amended C6 on a line containing a space. -/
theorem split_error_iff_no_space_witness :
    (' ' ∈ ("a b".toList)) ∧
    (∃ tok rest, splitFirstSpace ("a b".toList) = some (tok, rest) ∧
      ("a b".toList) = tok ++ ' ' :: rest ∧ ' ' ∉ tok) :=
  ⟨by decide, (split_error_iff_no_space ("a b".toList)).2 (by decide)⟩

/-- C5: extraction failure hands back the original line unconsumed; split
failure and parse failure are handled identically by the line processor —
the error counter is incremented and the line skipped, with no Entry
forwarded, no counted entry and no cursor movement — and a stream of
well-formed lines with one malformed line interleaved yields exactly one
Entry per well-formed line and an error count of one. -/
theorem malformed_line_skipped :
    (∀ (line : List Char) (tsOpt : Option Timestamp) (text : List Char)
        (e : ExtractErr),
        extractTs line = (tsOpt, text, some e) → text = line) ∧
    (∀ (cfg : ProcCfg) (s : String) (st : ProcState) (line : List Char)
        (tsOpt : Option Timestamp) (text : List Char) (e : ExtractErr),
        extractTs line = (tsOpt, text, some e) →
        processLine cfg s st line =
          { st with errorCount := st.errorCount + 1 }) ∧
    (∀ (cfg : ProcCfg) (s : String) (pre post : List (List Char))
        (bad : List Char),
        (∀ l ∈ pre ++ post, (extractTs l).2.2 = none) →
        (extractTs bad).2.2.isSome →
        (processLines cfg s initState (pre ++ bad :: post)).entries.length
            = pre.length + post.length ∧
        (processLines cfg s initState (pre ++ bad :: post)).errorCount = 1 ∧
        (processLines cfg s initState (pre ++ bad :: post)).entryCount
            = pre.length + post.length) := by
  refine ⟨fun line tsOpt text e h => extractTs_err_text h,
    fun cfg s st line tsOpt text e h => processLine_err h, ?_⟩
  intro cfg s pre post bad hgood hbad
  have hpre : ∀ l ∈ pre, (extractTs l).2.2 = none :=
    fun l hl => hgood l (List.mem_append_left _ hl)
  have hpost : ∀ l ∈ post, (extractTs l).2.2 = none :=
    fun l hl => hgood l (List.mem_append_right _ hl)
  obtain ⟨tsOpt, text, e, hb⟩ :
      ∃ tsOpt text e, extractTs bad = (tsOpt, text, some e) := by
    rcases extractTs_cases bad with ⟨ts, text, hok⟩ | h
    · rw [hok] at hbad; simp at hbad
    · exact h
  rw [processLines_append]
  obtain ⟨e1, e2, e3⟩ := processLines_good cfg s pre initState hpre
  rw [processLines_cons, processLine_err hb]
  obtain ⟨f1, f2, f3⟩ := processLines_good cfg s post
    { processLines cfg s initState pre with
      errorCount := (processLines cfg s initState pre).errorCount + 1 }
    hpost
  refine ⟨?_, ?_, ?_⟩
  · rw [f1]; simp only [e1]; simp [initState]
  · rw [f2]; simp only [e2]; simp [initState]
  · rw [f3]; simp only [e3]; simp [initState]

/-- Witness for C5: two well-formed lines around one malformed line give
two entries and one counted error. -/
theorem malformed_line_skipped_witness :
    (∀ l ∈ [("2023-01-01T00:00:01.000000000Z a".toList)] ++
        [("2023-01-01T00:00:02.000000000Z b".toList)],
      (extractTs l).2.2 = none) ∧
    (extractTs ("nospace".toList)).2.2.isSome ∧
    (processLines sampleCfg "stdout" initState
        ([("2023-01-01T00:00:01.000000000Z a".toList)] ++
          ("nospace".toList) ::
            [("2023-01-01T00:00:02.000000000Z b".toList)])).errorCount
      = 1 :=
  ⟨by decide, by decide,
    (malformed_line_skipped.2.2 sampleCfg "stdout"
      [("2023-01-01T00:00:01.000000000Z a".toList)]
      [("2023-01-01T00:00:02.000000000Z b".toList)]
      ("nospace".toList) (by decide) (by decide)).2.1⟩

/-- C7: for every relabel rule chain, every static label set and every
input, no label whose name begins with the double-underscore prefix
appears in any forwarded Entry: the filter after relabeling drops them
before the Entry is constructed. -/
theorem no_internal_labels_forwarded (cfg : ProcCfg) (s : String)
    (lines : List (List Char)) (en : Entry) (p : String × String)
    (hen : en ∈ (processLines cfg s initState lines).entries)
    (hp : p ∈ en.labels) : ¬ goStartsWith p.1 "__" := by
  rcases processLines_entries_shape cfg s lines initState en hen with
    h0 | ⟨ts, text, rfl⟩
  · simp [initState] at h0
  · have := List.mem_filter.mp hp
    simpa using this.2

/-- Witness for C7: a concrete processed line whose forwarded entry keeps
the static label, which indeed lacks the reserved prefix. -/
theorem no_internal_labels_forwarded_witness :
    (forwardedEntry sampleCfg "stdout" ⟨2023, 1, 1, 0, 0, 1, 0, 0⟩
        ("a".toList) ∈
      (processLines sampleCfg "stdout" initState
        [("2023-01-01T00:00:01.000000000Z a".toList)]).entries) ∧
    (("job", "x") ∈ (forwardedEntry sampleCfg "stdout"
        ⟨2023, 1, 1, 0, 0, 1, 0, 0⟩ ("a".toList)).labels) ∧
    ¬ goStartsWith (("job", "x") : String × String).1 "__" :=
  ⟨by decide, by decide,
    no_internal_labels_forwarded sampleCfg "stdout"
      [("2023-01-01T00:00:01.000000000Z a".toList)]
      (forwardedEntry sampleCfg "stdout" ⟨2023, 1, 1, 0, 0, 1, 0, 0⟩
        ("a".toList))
      ("job", "x") (by decide) (by decide)⟩

/-- C8: each successfully processed line appends its Entry, increments the
entries-processed counter and overwrites the cursor with the line's
timestamp in unix seconds, whatever the cursor held before; hence three
well-formed lines at increasing times yield exactly three entries in
order and a final cursor equal to the third timestamp's unix seconds. -/
theorem cursor_overwrite_and_order :
    (∀ (cfg : ProcCfg) (s : String) (st : ProcState) (line : List Char)
        (ts : Timestamp) (text : List Char),
        extractTs line = (some ts, text, none) →
        processLine cfg s st line =
          { st with
            entries := st.entries ++ [forwardedEntry cfg s ts text],
            entryCount := st.entryCount + 1,
            cursor := some ts.unix }) ∧
    (∀ (cfg : ProcCfg) (s : String) (l1 l2 l3 b1 b2 b3 : List Char)
        (t1 t2 t3 : Timestamp),
        extractTs l1 = (some t1, b1, none) →
        extractTs l2 = (some t2, b2, none) →
        extractTs l3 = (some t3, b3, none) →
        t1.unix < t2.unix → t2.unix < t3.unix →
        (processLines cfg s initState [l1, l2, l3]).entries =
          [forwardedEntry cfg s t1 b1, forwardedEntry cfg s t2 b2,
            forwardedEntry cfg s t3 b3] ∧
        (processLines cfg s initState [l1, l2, l3]).entryCount = 3 ∧
        (processLines cfg s initState [l1, l2, l3]).cursor
            = some t3.unix) := by
  refine ⟨fun cfg s st line ts text h => processLine_ok h, ?_⟩
  intro cfg s l1 l2 l3 b1 b2 b3 t1 t2 t3 h1 h2 h3 _ _
  rw [processLines_cons, processLine_ok h1, processLines_cons,
    processLine_ok h2, processLines_cons, processLine_ok h3,
    processLines_nil]
  refine ⟨?_, rfl, rfl⟩
  simp [initState]

/-- Witness for C8: three concrete lines one second apart. -/
theorem cursor_overwrite_and_order_witness :
    extractTs ("2023-01-01T00:00:01.000000000Z a".toList) =
      (some ⟨2023, 1, 1, 0, 0, 1, 0, 0⟩, "a".toList, none) ∧
    (⟨2023, 1, 1, 0, 0, 1, 0, 0⟩ : Timestamp).unix <
      (⟨2023, 1, 1, 0, 0, 2, 0, 0⟩ : Timestamp).unix ∧
    (processLines sampleCfg "stdout" initState
        [("2023-01-01T00:00:01.000000000Z a".toList),
          ("2023-01-01T00:00:02.000000000Z b".toList),
          ("2023-01-01T00:00:03.000000000Z c".toList)]).cursor
      = some ((⟨2023, 1, 1, 0, 0, 3, 0, 0⟩ : Timestamp).unix) :=
  ⟨by decide, by decide,
    (cursor_overwrite_and_order.2 sampleCfg "stdout"
      ("2023-01-01T00:00:01.000000000Z a".toList)
      ("2023-01-01T00:00:02.000000000Z b".toList)
      ("2023-01-01T00:00:03.000000000Z c".toList)
      ("a".toList) ("b".toList) ("c".toList)
      ⟨2023, 1, 1, 0, 0, 1, 0, 0⟩ ⟨2023, 1, 1, 0, 0, 2, 0, 0⟩
      ⟨2023, 1, 1, 0, 0, 3, 0, 0⟩
      (by decide) (by decide) (by decide) (by decide) (by decide)).2.2⟩

/-- C10: the label set handed to the relabel engine always contains the
synthetic log-stream label with this processor's stream value, and a
static target label of the same name is overwritten by it: the set is
built by setting every static label and then the stream label, with later
writes winning. -/
theorem stream_label_wins (static : List (String × String)) (v : String) :
    (dockerLabelLogStream, v) ∈ buildStreamLabels static v ∧
    (∀ w, (dockerLabelLogStream, w) ∈ buildStreamLabels static v →
      w = v) := by
  unfold buildStreamLabels labelsSet
  constructor
  · exact List.mem_append_right _ (List.mem_singleton.mpr rfl)
  · intro w hw
    rcases List.mem_append.mp hw with hmem | hmem
    · have := List.of_mem_filter hmem
      simp at this
    · simpa using hmem

/-- Witness for C10: a static label with the log-stream label's own name
does not survive into the set handed to the relabel engine; the stream
value does. -/
theorem stream_label_wins_witness :
    ((dockerLabelLogStream, "stdout") ∈
      buildStreamLabels [(dockerLabelLogStream, "other")] "stdout") ∧
    ((dockerLabelLogStream, "other") ∉
      buildStreamLabels [(dockerLabelLogStream, "other")] "stdout") :=
  ⟨(stream_label_wins [(dockerLabelLogStream, "other")] "stdout").1,
    fun h => absurd
      ((stream_label_wins [(dockerLabelLogStream, "other")] "stdout").2
        "other" h) (by decide)⟩

/-- C9: NewTarget fails exactly when the position-store lookup fails,
propagating that error and starting nothing; otherwise since is the stored
cursor when it is nonzero and the from-the-beginning sentinel zero when it
is zero, and the returned target is live but not yet confirmed running:
Ready() false, no recorded error, no worker joined yet, and the processing
loop spawned (phase created). -/
theorem newTarget_contract :
    (∀ (name e : String), NewTarget name (.error e) = .error e) ∧
    (∀ (name : String) (pos : Int), ∃ t, NewTarget name (.ok pos) = .ok t) ∧
    (∀ (name : String) (pos : Int) (t : Target),
        NewTarget name (.ok pos) = .ok t →
        Ready t = false ∧ t.err = none ∧ t.wgCount = 0 ∧
        t.phase = .created ∧ t.containerName = name ∧
        (pos ≠ 0 → t.since = pos) ∧ (pos = 0 → t.since = 0)) := by
  refine ⟨fun name e => rfl, fun name pos => ⟨_, rfl⟩, ?_⟩
  intro name pos t h
  simp only [NewTarget, Except.ok.injEq] at h
  subst h
  refine ⟨rfl, rfl, rfl, rfl, rfl, ?_, ?_⟩
  · intro hpos
    simp [if_pos hpos]
  · intro hpos
    simp [hpos]

/-- Witness for C9 at a nonzero stored cursor. -/
theorem newTarget_contract_witness :
    NewTarget "c" (.ok 5) =
      .ok ⟨"c", 5, false, none, 0, .created⟩ ∧
    Ready ⟨"c", 5, false, none, 0, .created⟩ = false ∧
    (⟨"c", 5, false, none, 0, .created⟩ : Target).since = 5 :=
  ⟨rfl, (newTarget_contract.2.2 "c" 5 _ rfl).1,
    ((newTarget_contract.2.2 "c" 5 _ rfl).2.2.2.2.2.1 (by decide))⟩

/-- C1 counterexample: running the concrete freshly constructed target's
processing loop with a failing log-stream request records the error and
stops the loop, but the running flag — stored true before the request and
never reset on the failure path — still reads true, so Ready() does not
return false as the claim requires. -/
theorem running_not_false_on_request_failure :
    NewTarget "c" (.ok 0) = .ok ⟨"c", 0, false, none, 0, .created⟩ ∧
    (processLoopRun ⟨"c", 0, false, none, 0, .created⟩
        (.error "no such container")).err = some "no such container" ∧
    ¬ (Ready (processLoopRun ⟨"c", 0, false, none, 0, .created⟩
        (.error "no such container")) = false) :=
  ⟨rfl, rfl, by decide⟩

/-- C1 (amended): running is false on the freshly constructed target; the
processing loop stores running = true before requesting the stream; on
request failure the error is recorded and the loop exits with no internal
retry, but running remains true — Ready() reports true — because the
failure path never resets the flag; after a successful acquisition
running stays true until cancellation, which resets it to false. -/
theorem running_flag_lifecycle :
    (∀ (name : String) (pos : Int) (t : Target),
        NewTarget name (.ok pos) = .ok t → Ready t = false) ∧
    (∀ (t : Target) (e : String),
        Ready (processLoopRun t (.error e)) = true ∧
        (processLoopRun t (.error e)).err = some e ∧
        (processLoopRun t (.error e)).phase = .failed) ∧
    (∀ t : Target, Ready (processLoopRun t (.ok ())) = true) ∧
    (∀ t : Target, Ready ((processLoopRun t (.ok ())).stop) = false) := by
  refine ⟨?_, fun t e => ⟨rfl, rfl, rfl⟩, fun t => rfl, fun t => rfl⟩
  intro name pos t h
  simp only [NewTarget, Except.ok.injEq] at h
  subst h
  rfl

/-- Witness for the amended C1. -/
theorem running_flag_lifecycle_witness :
    NewTarget "c" (.ok 5) =
      .ok ⟨"c", 5, false, none, 0, .created⟩ ∧
    Ready ⟨"c", 5, false, none, 0, .created⟩ = false :=
  ⟨rfl, running_flag_lifecycle.1 "c" 5 _ rfl⟩

/-- C2 counterexample: for the concrete target whose stream acquisition
failed, Stop() returns with the completion-join count at zero, yet
Ready() still reports true afterwards, refuting that Ready() is false
after Stop() for every prior state. -/
theorem ready_after_stop_of_failed_target :
    ((processLoopRun ⟨"c", 0, false, none, 0, .created⟩
        (.error "no such container")).stop).wgCount = 0 ∧
    ¬ (Ready ((processLoopRun ⟨"c", 0, false, none, 0, .created⟩
        (.error "no such container")).stop) = false) := by decide

/-- C2 (amended): after Stop() returns, every spawned worker has exited —
the completion-join count is zero — for any prior state, and Stop is
idempotent; Ready() is false after Stop whenever the stream had been
acquired, but when stream acquisition failed the running flag was never
reset, so Ready() remains true even after Stop(). -/
theorem stop_teardown :
    (∀ (name : String) (pos : Int) (t : Target) (a : Except String Unit),
        NewTarget name (.ok pos) = .ok t →
        ((processLoopRun t a).stop).wgCount = 0 ∧
        ((processLoopRun t a).stop).stop = (processLoopRun t a).stop) ∧
    (∀ t : Target,
        Ready ((processLoopRun t (.ok ())).stop) = false ∧
        ((processLoopRun t (.ok ())).stop).wgCount = 0) ∧
    (∀ (t : Target) (e : String),
        Ready ((processLoopRun t (.error e)).stop) = true) := by
  refine ⟨?_, fun t => ⟨rfl, rfl⟩, fun t e => rfl⟩
  intro name pos t a h
  simp only [NewTarget, Except.ok.injEq] at h
  subst h
  cases a with
  | error e => exact ⟨rfl, rfl⟩
  | ok u => exact ⟨rfl, rfl⟩

/-- Witness for the amended C2 on a successfully streaming target. -/
theorem stop_teardown_witness :
    NewTarget "c" (.ok 0) = .ok ⟨"c", 0, false, none, 0, .created⟩ ∧
    ((processLoopRun ⟨"c", 0, false, none, 0, .created⟩ (.ok ())).stop).wgCount
      = 0 ∧
    ((processLoopRun ⟨"c", 0, false, none, 0, .created⟩ (.ok ())).stop).stop
      = (processLoopRun ⟨"c", 0, false, none, 0, .created⟩ (.ok ())).stop :=
  ⟨rfl,
    (stop_teardown.1 "c" 0 _ (.ok ()) rfl).1,
    (stop_teardown.1 "c" 0 _ (.ok ()) rfl).2⟩

/-- C3: Details evaluates t.err.Error() unconditionally (line 227); on the
concrete freshly constructed target, where no error has ever occurred,
t.err is nil and the dereference panics — modelled as none — instead of
returning a snapshot with a "no error yet" field, while a target carrying
an error does yield the four-field snapshot. -/
theorem details_panics_without_error :
    Details ⟨"c", 0, false, none, 0, .created⟩ "0" = none ∧
    Details ⟨"c", 0, true, some "no such container", 0, .failed⟩ "0" =
      some [("id", "c"), ("error", "no such container"), ("position", "0"),
            ("running", "true")] := by decide

end DockerTarget
